import Mathlib

/-!
Shallow embedding of the request-parameter translation, pagination and
result-conversion logic of the APIWrapperRemoteProvider template
(src/boson/provider.py). Python dictionaries are modelled as ordered
association lists with unique keys, Python values as the inductive type
Value, and raising code as Except String.
-/

/-- Python values carried through the parameter dictionaries. vdate s is the
abstract "%Y-%m-%d" rendering of datetime.fromtimestamp(s) (the external
datetime library call is kept symbolic: only the seconds value matters). -/
inductive Value where
  | vnone : Value
  | vbool : Bool → Value
  | vnum : Rat → Value
  | vstr : String → Value
  | vdate : Int → Value
  | vlist : List Value → Value
  | vdict : List (String × Value) → Value

/-- Python truthiness for Value (bool(v)). -/
def pyTruthy : Value → Bool
  | .vnone => false
  | .vbool b => b
  | .vnum q => q != 0
  | .vstr s => !s.isEmpty
  | .vdate _ => true
  | .vlist l => !l.isEmpty
  | .vdict d => !d.isEmpty

/-- Key membership in an association-list dictionary (k in d). -/
def hasKey {α : Type} : List (String × α) → String → Bool
  | [], _ => false
  | kv :: rest, k => kv.1 == k || hasKey rest k

/-- Lookup in an association-list dictionary (d.get(k) returning None when
absent). -/
def dictGet {α : Type} : List (String × α) → String → Option α
  | [], _ => none
  | kv :: rest, k => if kv.1 == k then some kv.2 else dictGet rest k

/-- Lookup with default (d.get(k, v)). -/
def dictGetD {α : Type} (d : List (String × α)) (k : String) (v : α) : α :=
  (dictGet d k).getD v

/-- Dictionary assignment d[k] = v: replace the (unique) existing entry in
place, else append. Python dictionaries have unique keys, so replacing the
first occurrence models the update exactly. -/
def dictSet {α : Type} : List (String × α) → String → α → List (String × α)
  | [], k, v => [(k, v)]
  | kv :: rest, k, v =>
      if kv.1 == k then (k, v) :: rest else kv :: dictSet rest k v

/-- d.update(e): assign every entry of e into d, in order. -/
def dictUpdate {α : Type} (d e : List (String × α)) : List (String × α) :=
  e.foldl (fun acc kv => dictSet acc kv.1 kv.2) d

/-- Python list indexing l[i]; raises IndexError when out of range. -/
def pyIndex {α : Type} (l : List α) (i : Nat) : Except String α :=
  match l.get? i with
  | some x => .ok x
  | none => .error "IndexError: list index out of range"

/-- The association-list form of a Python dict of query parameters. -/
abbrev Dict := List (String × Value)

/-- Build a Value list out of rational numbers. -/
def ratListValue (l : List Rat) : Value := .vlist (l.map .vnum)

/-- Build a Value list out of strings. -/
def strListValue (l : List String) : Value := .vlist (l.map .vstr)

/-- protobuf Timestamp: only the seconds field is read by the code. -/
structure Timestamp where
  seconds : Int
deriving DecidableEq

/-- A geometry object passed through the intersects keyword; the code only
reads its bounds accessor (the bounding box of the geometry). -/
structure Geometry where
  bounds : List Rat
deriving DecidableEq

/-- The filter argument: either an opaque CQLFilter object (always truthy)
or a plain mapping (truthy when non-empty). -/
inductive Filt where
  | cqlObj : String → Filt
  | fdict : Dict → Filt

/-- Python truthiness of the filter argument (None is the none case of the
surrounding Option). -/
def filtTruthy : Option Filt → Bool
  | none => false
  | some (.cqlObj _) => true
  | some (.fdict d) => !d.isEmpty

/-- The fields argument: either a flat list of prefixed names or a mapping
with include/exclude lists. -/
inductive Fields where
  | flist : List String → Fields
  | fdict : List (String × List String) → Fields
deriving DecidableEq

/-- Python truthiness of the fields argument. -/
def fieldsTruthy : Option Fields → Bool
  | none => false
  | some (.flist l) => !l.isEmpty
  | some (.fdict d) => !d.isEmpty

/-- The list comprehension selecting entries whose first character is c
(field for field in fields if field[0] == c). Indexing an empty string
raises an IndexError. Selected entries are kept verbatim, prefix included. -/
def selectPrefixed (c : Char) : List String → Except String (List String)
  | [] => .ok []
  | f :: rest =>
      match f.toList with
      | [] => .error "IndexError: string index out of range"
      | c0 :: _ =>
          (selectPrefixed c rest).bind fun sel =>
            .ok (if c0 == c then f :: sel else sel)

/-- A queryable parameter as declared by the registry; models the protobuf
Property(title, type, enum) message built in queryables(). -/
structure QProperty where
  title : String
  type : String
  enum : Option (List String)
deriving DecidableEq

/-- Result of datetime.strptime(s, "%Y-%m-%dT%H:%M"). -/
structure PyDateTime where
  year : Nat
  month : Nat
  day : Nat
  hour : Nat
  minute : Nat
deriving DecidableEq

/-- Split a character list on a separator character. -/
def splitOnChar (c : Char) : List Char → List (List Char)
  | [] => [[]]
  | x :: xs =>
      match splitOnChar c xs with
      | [] => if x == c then [[], []] else [[x]]
      | y :: ys => if x == c then [] :: y :: ys else (x :: y) :: ys

/-- Read a non-empty all-digit character list as a number. -/
def digitsVal (cs : List Char) : Option Nat :=
  if cs.isEmpty then none
  else if cs.all (fun c => c.isDigit) then
    some (cs.foldl (fun n c => 10 * n + (c.toNat - 48)) 0)
  else none

/-- Modelled from the external datetime.strptime with the fixed format
"%Y-%m-%dT%H:%M": parse year-month-day and hour:minute, none when the
string does not match the format. -/
def strptimeYmdHM (s : String) : Option PyDateTime :=
  match splitOnChar 'T' s.toList with
  | [d, t] =>
      (match splitOnChar '-' d, splitOnChar ':' t with
        | [y, m, dd], [hh, mi] =>
            (match digitsVal y, digitsVal m, digitsVal dd,
                digitsVal hh, digitsVal mi with
              | some yv, some mv, some dv, some hv, some miv =>
                  some ⟨yv, mv, dv, hv, miv⟩
              | _, _, _, _, _ => none)
        | _, _ => none)
  | _ => none

/-- The Default Parameter Set fixed in APIWrapperRemoteProvider.__init__
(self.api_default_params). -/
def api_default_params : Dict :=
  [("api_key", .vstr "api key goes here"), ("format", .vstr "json")]

/-- self.max_page_size fixed in __init__. -/
def max_page_size : Int := 200

/-- The hardcoded example mapping returned by queryables() when no OpenAPI
document exists at the placeholder path (the shipped template's code path,
since "path_to_openapi_file" is a placeholder and not a real file). -/
def exampleQueryables : List (String × QProperty) :=
  [("example_parameter",
      ⟨"parameter_title", "string", some ["option1", "option2", "option3"]⟩),
   ("example_parameter2", ⟨"parameter_title2", "integer", none⟩),
   ("example_parameter3", ⟨"parameter_title3", "integer", none⟩),
   ("example_parameter4", ⟨"parameter_title4", "boolean", none⟩)]

/-- DEFAULTS block of parse_input_params: start from an empty dict and merge
the default parameters when non-empty. -/
def step_defaults (d : Dict) : Dict :=
  if !d.isEmpty then dictUpdate [] d else []

/-- BBOX block: when a bbox is provided, store it verbatim. -/
def step_bbox (ap : Dict) (bbox : List Rat) : Dict :=
  if !bbox.isEmpty then dictSet ap "bbox" (ratListValue bbox) else ap

/-- DATETIME block: on a non-empty datetime list, read elements 0 and 1
(raising an IndexError on a one-element list) and store their "%Y-%m-%d"
renderings as startdate and enddate. -/
def step_datetime (ap : Dict) (datetime : List Timestamp) : Except String Dict :=
  if !datetime.isEmpty then
    (pyIndex datetime 0).bind fun t0 =>
      (pyIndex datetime 1).bind fun t1 =>
        .ok (dictSet (dictSet ap "startdate" (.vdate t0.seconds))
              "enddate" (.vdate t1.seconds))
  else .ok ap

/-- INTERSECTS block: a provided geometry overwrites bbox with its bounds. -/
def step_intersects (ap : Dict) (intersects : Option Geometry) : Dict :=
  match intersects with
  | some g => dictSet ap "bbox" (ratListValue g.bounds)
  | none => ap

/-- IDS block: a non-empty feature_ids list is stored verbatim under ids
(the COLLECTIONS block only logs and is omitted as a no-op). -/
def step_ids (ap : Dict) (feature_ids : List String) : Dict :=
  if !feature_ids.isEmpty then dictSet ap "ids" (strListValue feature_ids) else ap

/-- FILTER block: a truthy filter is converted by the external
cql2_to_query_params (the function argument cql) and merged into the
parameters. -/
def step_filter (cql : Filt → Dict) (ap : Dict) (filt : Option Filt) : Dict :=
  match filt with
  | some f => if filtTruthy (some f) then dictUpdate ap (cql f) else ap
  | none => ap

/-- FIELDS block: a mapping reads its include/exclude lists directly; a flat
list partitions by first character (entries kept verbatim, prefix included).
Only the exclude list is forwarded, as exclude_columns. -/
def step_fields (ap : Dict) (fields : Option Fields) : Except String Dict :=
  if fieldsTruthy fields then
    match fields with
    | some (.fdict entries) =>
        let _include := dictGetD entries "include" []
        let exclude := dictGetD entries "exclude" []
        .ok (dictSet ap "exclude_columns" (strListValue exclude))
    | some (.flist l) =>
        (selectPrefixed '+' l).bind fun _include =>
          (selectPrefixed '-' l).bind fun exclude =>
            .ok (dictSet ap "exclude_columns" (strListValue exclude))
    | none => .ok ap
  else .ok ap

/-- SORTBY block: a truthy sortby dict forwards only its direction entry
(default asc) as sort. -/
def step_sortby (ap : Dict) (sortby : Option Dict) : Dict :=
  match sortby with
  | some sb =>
      if !sb.isEmpty then dictSet ap "sort" (dictGetD sb "direction" (.vstr "asc"))
      else ap
  | none => ap

/-- METHOD and PAGINATION blocks: method, page and page_size are each stored
(unconditionally on their value) exactly when their name is a key of the
queryables registry mapping. -/
def step_registry (q : List (String × QProperty)) (ap : Dict)
    (method : String) (page page_size : Value) : Dict :=
  let ap1 := if hasKey q "method" then dictSet ap "method" (.vstr method) else ap
  let ap2 := if hasKey q "page" then dictSet ap1 "page" page else ap1
  if hasKey q "page_size" then dictSet ap2 "page_size" page_size else ap2

/-- APIWrapperRemoteProvider.parse_input_params: translate the search inputs
into the API parameter dictionary, block by block in source order. defaults
models self.api_default_params, q the mapping returned by self.queryables(),
cql the external cql2_to_query_params. collections is accepted but only
logged by the source, so it does not contribute. -/
def parse_input_params (defaults : Dict) (q : List (String × QProperty))
    (cql : Filt → Dict) (bbox : List Rat) (datetime : List Timestamp)
    (intersects : Option Geometry) (collections : List String)
    (feature_ids : List String) (filt : Option Filt) (fields : Option Fields)
    (sortby : Option Dict) (method : String) (page page_size : Value) :
    Except String Dict :=
  (step_datetime (step_bbox (step_defaults defaults) bbox) datetime).bind fun ap3 =>
    (step_fields
        (step_filter cql (step_ids (step_intersects ap3 intersects) feature_ids) filt)
        fields).bind fun ap7 =>
      .ok (step_registry q (step_sortby ap7 sortby) method page page_size)

/-- A normalized record, modelled from the spec: the external geodesic.Feature
class (not part of this repository) holds the identifier, geometry and parsed
timestamp it was constructed with, plus a properties mapping that starts empty
and receives the remaining observation fields. -/
structure Feature where
  id : Value
  geometry : Value
  datetime : PyDateTime
  properties : Dict

/-- Interpret a Value as a Python list for len() and iteration; anything else
raises a TypeError. -/
def pyAsList : Value → Except String (List Value)
  | .vlist l => .ok l
  | _ => .error "TypeError: object is not a list"

/-- Interpret a Value as an observation mapping; calling .get on anything
else raises an AttributeError. -/
def pyObsDict : Value → Except String Dict
  | .vdict d => .ok d
  | _ => .error "AttributeError: object has no attribute get"

/-- The per-observation body of the conversion loop: read id, Latitude and
Longitude (default 0), build the point geometry with longitude first, parse
the UTC field with strptime "%Y-%m-%dT%H:%M", then copy every observation
entry whose key is not id, geometry or datetime into the properties. -/
def convertOne (v : Value) : Except String Feature :=
  (pyObsDict v).bind fun observation =>
    let id := dictGetD observation "id" .vnone
    let lat := dictGetD observation "Latitude" (.vnum 0)
    let lon := dictGetD observation "Longitude" (.vnum 0)
    let geometry : Value :=
      .vdict [("type", .vstr "Point"), ("coordinates", .vlist [lon, lat])]
    let obs_dt := dictGetD observation "UTC" .vnone
    (match obs_dt with
      | .vstr s => Except.ok s
      | _ => Except.error "TypeError: strptime argument must be str").bind fun s =>
      (match strptimeYmdHM s with
        | some d => Except.ok d
        | none => Except.error "ValueError: time data does not match format").bind
        fun dt =>
        let fixed_keys := ["id", "geometry", "datetime"]
        let properties := observation.foldl
          (fun (acc : Dict) (kv : String × Value) =>
            if fixed_keys.contains kv.1 then acc else dictSet acc kv.1 kv.2)
          []
        .ok { id := id, geometry := geometry, datetime := dt, properties := properties }

/-- APIWrapperRemoteProvider.convert_results_to_features: unwrap the results
key when the response is a mapping (default empty list), log the first result
(response[0], which raises an IndexError on an empty list), then convert each
observation. -/
def convert_results_to_features (response : Value) : Except String (List Feature) :=
  let response2 :=
    match response with
    | .vdict d => dictGetD d "results" (.vlist [])
    | r => r
  (pyAsList response2).bind fun results =>
    (pyIndex results 0).bind fun _first =>
      results.mapM convertOne

/-- An HTTP response as seen by request_features: the status code and the
decoded JSON body. -/
structure HttpResponse where
  status_code : Int
  body : Value

/-- APIWrapperRemoteProvider.request_features: translate the parameters,
perform the GET (modelled by the function argument httpGet), and on status
200 convert the body unless it is falsy; any other status yields an empty
list. -/
def request_features (defaults : Dict) (q : List (String × QProperty))
    (cql : Filt → Dict) (httpGet : Dict → HttpResponse) (bbox : List Rat)
    (datetime : List Timestamp) (intersects : Option Geometry)
    (collections : List String) (feature_ids : List String) (filt : Option Filt)
    (fields : Option Fields) (sortby : Option Dict) (method : String)
    (page page_size : Value) : Except String (List Feature) :=
  (parse_input_params defaults q cql bbox datetime intersects collections
      feature_ids filt fields sortby method page page_size).bind fun api_params =>
    let response := httpGet api_params
    if response.status_code = 200 then
      let res := response.body
      if !pyTruthy res then .ok []
      else convert_results_to_features res
    else .ok []

/-- The pagination block of search: page starts at 1 and page_size at
max_page_size; a limit of 0 counts as no limit; a non-None limit caps the
page size at max_page_size; a truthy pagination dict then overrides both,
page defaulting to None and page_size to max_page_size. -/
def resolve_pagination (mps : Int) (pagination : Dict) (limit : Option Int) :
    Value × Value :=
  let page : Value := .vnum 1
  let limit := if limit = some 0 then none else limit
  let page_size : Value :=
    match limit with
    | some l => .vnum (if l ≤ mps then l else mps)
    | none => .vnum mps
  if !pagination.isEmpty then
    ((dictGet pagination "page").getD .vnone,
     (dictGet pagination "page_size").getD (.vnum mps))
  else (page, page_size)

/-- Python integer increment page + 1; a None page raises a TypeError. -/
def pyIncr : Value → Except String Value
  | .vnum q => .ok (.vnum (q + 1))
  | _ => .error "TypeError: unsupported operand types for +"

/-- APIWrapperRemoteProvider.search: resolve page and page_size from the
pagination and limit inputs, pass them with the remaining search arguments to
request_features, and return the features together with the next-page
pagination state containing page + 1 and the effective page size.
provider_properties is only logged by the source. -/
def search (defaults : Dict) (q : List (String × QProperty)) (cql : Filt → Dict)
    (httpGet : Dict → HttpResponse) (pagination provider_properties : Dict)
    (limit : Option Int) (bbox : List Rat) (datetime : List Timestamp)
    (intersects : Option Geometry) (collections : List String)
    (feature_ids : List String) (filt : Option Filt) (fields : Option Fields)
    (sortby : Option Dict) (method : String) :
    Except String (List Feature × Dict) :=
  let _ := provider_properties
  let pp := resolve_pagination max_page_size pagination limit
  (request_features defaults q cql httpGet bbox datetime intersects collections
      feature_ids filt fields sortby method pp.1 pp.2).bind fun features =>
    (pyIncr pp.1).bind fun next =>
      .ok (features, [("page", next), ("page_size", pp.2)])

/-- Read a key out of a successful parameter translation; none on error. -/
def okGet (e : Except String Dict) (k : String) : Option Value :=
  match e with
  | .ok d => dictGet d k
  | .error _ => none

theorem hasKey_dictSet {α : Type} (d : List (String × α)) (k k' : String) (v : α) :
    hasKey (dictSet d k v) k' = ((k' == k) || hasKey d k') := by
  induction d with
  | nil =>
      by_cases h2 : k' = k
      · subst h2; simp [dictSet, hasKey]
      · have e1 : (k' == k) = false := beq_eq_false_iff_ne.mpr h2
        have e2 : (k == k') = false := beq_eq_false_iff_ne.mpr (Ne.symm h2)
        simp [dictSet, hasKey, e1, e2]
  | cons kv rest ih =>
      by_cases h : kv.1 = k
      · have hb : (kv.1 == k) = true := beq_iff_eq.mpr h
        by_cases h2 : k' = k
        · subst h2; simp [dictSet, hasKey, hb]
        · have e1 : (k' == k) = false := beq_eq_false_iff_ne.mpr h2
          have e2 : (k == k') = false := beq_eq_false_iff_ne.mpr (Ne.symm h2)
          have e3 : (kv.1 == k') = false := by
            rw [h]; exact beq_eq_false_iff_ne.mpr (Ne.symm h2)
          simp [dictSet, hasKey, hb, e1, e2, e3]
      · have hb : (kv.1 == k) = false := beq_eq_false_iff_ne.mpr h
        simp only [dictSet, hb, if_false, Bool.false_eq_true, hasKey, ih]
        cases kv.1 == k' <;> cases k' == k <;> simp

theorem dictGet_dictSet {α : Type} (d : List (String × α)) (k k' : String) (v : α) :
    dictGet (dictSet d k v) k' = if k' == k then some v else dictGet d k' := by
  induction d with
  | nil =>
      by_cases h2 : k' = k
      · subst h2; simp [dictSet, dictGet]
      · have e2 : (k == k') = false := beq_eq_false_iff_ne.mpr (Ne.symm h2)
        have e1 : (k' == k) = false := beq_eq_false_iff_ne.mpr h2
        simp [dictSet, dictGet, e1, e2]
  | cons kv rest ih =>
      by_cases h : kv.1 = k
      · have hb : (kv.1 == k) = true := beq_iff_eq.mpr h
        by_cases h2 : k' = k
        · subst h2; simp [dictSet, dictGet, hb]
        · have e1 : (k' == k) = false := beq_eq_false_iff_ne.mpr h2
          have e2 : (k == k') = false := beq_eq_false_iff_ne.mpr (Ne.symm h2)
          have e3 : (kv.1 == k') = false := by
            rw [h]; exact beq_eq_false_iff_ne.mpr (Ne.symm h2)
          simp [dictSet, dictGet, hb, e1, e2, e3]
      · have hb : (kv.1 == k) = false := beq_eq_false_iff_ne.mpr h
        by_cases h3 : kv.1 = k'
        · have e3 : (kv.1 == k') = true := beq_iff_eq.mpr h3
          have e1 : (k' == k) = false := by
            rw [← h3]; exact beq_eq_false_iff_ne.mpr h
          simp [dictSet, dictGet, hb, e1, e3]
        · have e3 : (kv.1 == k') = false := beq_eq_false_iff_ne.mpr h3
          simp [dictSet, dictGet, hb, e3, ih]

theorem hasKey_dictUpdate {α : Type} (e d : List (String × α)) (k : String) :
    hasKey (dictUpdate d e) k = (hasKey d k || hasKey e k) := by
  induction e generalizing d with
  | nil => simp [dictUpdate, hasKey]
  | cons kv rest ih =>
      have step : dictUpdate d (kv :: rest) = dictUpdate (dictSet d kv.1 kv.2) rest := by
        simp [dictUpdate]
      rw [step, ih, hasKey_dictSet]
      by_cases h : k = kv.1
      · have e1 : (k == kv.1) = true := beq_iff_eq.mpr h
        have e2 : (kv.1 == k) = true := beq_iff_eq.mpr h.symm
        simp [hasKey, e1, e2]
      · have e1 : (k == kv.1) = false := beq_eq_false_iff_ne.mpr h
        have e2 : (kv.1 == k) = false := beq_eq_false_iff_ne.mpr (Ne.symm h)
        simp [hasKey, e1, e2]

theorem dictGet_dictUpdate_of_not {α : Type} (e d : List (String × α)) (k : String)
    (h : hasKey e k = false) : dictGet (dictUpdate d e) k = dictGet d k := by
  induction e generalizing d with
  | nil => simp [dictUpdate]
  | cons kv rest ih =>
      have step : dictUpdate d (kv :: rest) = dictUpdate (dictSet d kv.1 kv.2) rest := by
        simp [dictUpdate]
      simp only [hasKey, Bool.or_eq_false_iff] at h
      rw [step, ih _ h.2, dictGet_dictSet]
      have e1 : (k == kv.1) = false := by
        exact beq_eq_false_iff_ne.mpr (Ne.symm (beq_eq_false_iff_ne.mp h.1))
      simp [e1]

theorem hasKey_step_bbox {ap : Dict} {bbox : List Rat} (k : String)
    (hk : (k == "bbox") = false) : hasKey (step_bbox ap bbox) k = hasKey ap k := by
  unfold step_bbox
  split
  · rw [hasKey_dictSet, hk]; simp
  · rfl

theorem hasKey_step_datetime {ap ap2 : Dict} {dt : List Timestamp}
    (hd : step_datetime ap dt = .ok ap2) (k : String)
    (h1 : (k == "startdate") = false) (h2 : (k == "enddate") = false) :
    hasKey ap2 k = hasKey ap k := by
  unfold step_datetime at hd
  split at hd
  · cases e0 : pyIndex dt 0 with
    | error e => rw [e0] at hd; simp [Except.bind] at hd
    | ok t0 =>
        rw [e0] at hd
        cases e1 : pyIndex dt 1 with
        | error e => rw [e1] at hd; simp [Except.bind] at hd
        | ok t1 =>
            rw [e1] at hd
            simp only [Except.bind, Except.ok.injEq] at hd
            subst hd
            rw [hasKey_dictSet, hasKey_dictSet, h1, h2]
            simp
  · simp only [Except.ok.injEq] at hd
    subst hd
    rfl

theorem hasKey_step_intersects {ap : Dict} {i : Option Geometry} (k : String)
    (hk : (k == "bbox") = false) : hasKey (step_intersects ap i) k = hasKey ap k := by
  cases i with
  | none => rfl
  | some g => unfold step_intersects; rw [hasKey_dictSet, hk]; simp

theorem hasKey_step_ids {ap : Dict} {fids : List String} (k : String)
    (hk : (k == "ids") = false) : hasKey (step_ids ap fids) k = hasKey ap k := by
  unfold step_ids
  split
  · rw [hasKey_dictSet, hk]; simp
  · rfl

theorem hasKey_step_filter {cql : Filt → Dict} {ap : Dict} {filt : Option Filt}
    {k : String} (hc : ∀ f, filt = some f → hasKey (cql f) k = false) :
    hasKey (step_filter cql ap filt) k = hasKey ap k := by
  cases filt with
  | none => rfl
  | some f =>
      have hcf : hasKey (cql f) k = false := hc f rfl
      simp only [step_filter]
      split
      · rw [hasKey_dictUpdate, hcf]; simp
      · rfl

theorem hasKey_step_fields {ap ap2 : Dict} {fs : Option Fields}
    (hf : step_fields ap fs = .ok ap2) (k : String)
    (hk : (k == "exclude_columns") = false) :
    hasKey ap2 k = hasKey ap k := by
  cases fs with
  | none =>
      simp only [step_fields, fieldsTruthy, Bool.false_eq_true, if_false,
        Except.ok.injEq] at hf
      subst hf
      rfl
  | some f =>
      cases f with
      | fdict entries =>
          simp only [step_fields] at hf
          split at hf
          · simp only [Except.ok.injEq] at hf
            subst hf
            rw [hasKey_dictSet, hk]; simp
          · simp only [Except.ok.injEq] at hf
            subst hf
            rfl
      | flist l =>
          simp only [step_fields] at hf
          split at hf
          · cases e0 : selectPrefixed '+' l with
            | error e => rw [e0] at hf; simp [Except.bind] at hf
            | ok inc =>
                rw [e0] at hf
                cases e1 : selectPrefixed '-' l with
                | error e => rw [e1] at hf; simp [Except.bind] at hf
                | ok exc =>
                    rw [e1] at hf
                    simp only [Except.bind, Except.ok.injEq] at hf
                    subst hf
                    rw [hasKey_dictSet, hk]; simp
          · simp only [Except.ok.injEq] at hf
            subst hf
            rfl

theorem hasKey_step_sortby {ap : Dict} {sb : Option Dict} (k : String)
    (hk : (k == "sort") = false) : hasKey (step_sortby ap sb) k = hasKey ap k := by
  cases sb with
  | none => rfl
  | some d =>
      simp only [step_sortby]
      split
      · rw [hasKey_dictSet, hk]; simp
      · rfl

theorem dictGet_step_ids {ap : Dict} {fids : List String} (k : String)
    (hk : (k == "ids") = false) : dictGet (step_ids ap fids) k = dictGet ap k := by
  unfold step_ids
  split
  · rw [dictGet_dictSet, hk]; simp
  · rfl

theorem dictGet_step_filter {cql : Filt → Dict} {ap : Dict} {filt : Option Filt}
    {k : String} (hc : ∀ f, filt = some f → hasKey (cql f) k = false) :
    dictGet (step_filter cql ap filt) k = dictGet ap k := by
  cases filt with
  | none => rfl
  | some f =>
      have hcf : hasKey (cql f) k = false := hc f rfl
      simp only [step_filter]
      split
      · rw [dictGet_dictUpdate_of_not _ _ _ hcf]
      · rfl

theorem dictGet_step_fields {ap ap2 : Dict} {fs : Option Fields}
    (hf : step_fields ap fs = .ok ap2) (k : String)
    (hk : (k == "exclude_columns") = false) :
    dictGet ap2 k = dictGet ap k := by
  cases fs with
  | none =>
      simp only [step_fields, fieldsTruthy, Bool.false_eq_true, if_false,
        Except.ok.injEq] at hf
      subst hf
      rfl
  | some f =>
      cases f with
      | fdict entries =>
          simp only [step_fields] at hf
          split at hf
          · simp only [Except.ok.injEq] at hf
            subst hf
            rw [dictGet_dictSet, hk]; simp
          · simp only [Except.ok.injEq] at hf
            subst hf
            rfl
      | flist l =>
          simp only [step_fields] at hf
          split at hf
          · cases e0 : selectPrefixed '+' l with
            | error e => rw [e0] at hf; simp [Except.bind] at hf
            | ok inc =>
                rw [e0] at hf
                cases e1 : selectPrefixed '-' l with
                | error e => rw [e1] at hf; simp [Except.bind] at hf
                | ok exc =>
                    rw [e1] at hf
                    simp only [Except.bind, Except.ok.injEq] at hf
                    subst hf
                    rw [dictGet_dictSet, hk]; simp
          · simp only [Except.ok.injEq] at hf
            subst hf
            rfl

theorem dictGet_step_sortby {ap : Dict} {sb : Option Dict} (k : String)
    (hk : (k == "sort") = false) : dictGet (step_sortby ap sb) k = dictGet ap k := by
  cases sb with
  | none => rfl
  | some d =>
      simp only [step_sortby]
      split
      · rw [dictGet_dictSet, hk]; simp
      · rfl

theorem dictGet_step_registry_other {q : List (String × QProperty)} {ap : Dict}
    {m : String} {p ps : Value} (k : String)
    (h1 : (k == "method") = false) (h2 : (k == "page") = false)
    (h3 : (k == "page_size") = false) :
    dictGet (step_registry q ap m p ps) k = dictGet ap k := by
  unfold step_registry
  by_cases q1 : hasKey q "method" = true <;> by_cases q2 : hasKey q "page" = true <;>
    by_cases q3 : hasKey q "page_size" = true <;>
    simp [q1, q2, q3, dictGet_dictSet, h1, h2, h3]

theorem dictGet_step_registry_page {q : List (String × QProperty)} {ap : Dict}
    {m : String} {p ps : Value} (hq : hasKey q "page" = true) :
    dictGet (step_registry q ap m p ps) "page" = some p := by
  unfold step_registry
  by_cases q3 : hasKey q "page_size" = true <;>
    simp [hq, q3, dictGet_dictSet]

theorem dictGet_step_registry_page_size {q : List (String × QProperty)} {ap : Dict}
    {m : String} {p ps : Value} (hq : hasKey q "page_size" = true) :
    dictGet (step_registry q ap m p ps) "page_size" = some ps := by
  unfold step_registry
  simp [hq, dictGet_dictSet]

theorem hasKey_step_registry_method {q : List (String × QProperty)} {ap : Dict}
    {m : String} {p ps : Value} (hn : hasKey ap "method" = false) :
    hasKey (step_registry q ap m p ps) "method" = hasKey q "method" := by
  unfold step_registry
  by_cases q1 : hasKey q "method" = true <;> by_cases q2 : hasKey q "page" = true <;>
    by_cases q3 : hasKey q "page_size" = true <;>
    simp [q1, q2, q3, hasKey_dictSet, hn]

theorem hasKey_step_registry_page {q : List (String × QProperty)} {ap : Dict}
    {m : String} {p ps : Value} (hn : hasKey ap "page" = false) :
    hasKey (step_registry q ap m p ps) "page" = hasKey q "page" := by
  unfold step_registry
  by_cases q1 : hasKey q "method" = true <;> by_cases q2 : hasKey q "page" = true <;>
    by_cases q3 : hasKey q "page_size" = true <;>
    simp [q1, q2, q3, hasKey_dictSet, hn]

theorem hasKey_step_registry_page_size {q : List (String × QProperty)} {ap : Dict}
    {m : String} {p ps : Value} (hn : hasKey ap "page_size" = false) :
    hasKey (step_registry q ap m p ps) "page_size" = hasKey q "page_size" := by
  unfold step_registry
  by_cases q1 : hasKey q "method" = true <;> by_cases q2 : hasKey q "page" = true <;>
    by_cases q3 : hasKey q "page_size" = true <;>
    simp [q1, q2, q3, hasKey_dictSet, hn]

/-- A successful run of parse_input_params decomposes into its three
sequential segments: the datetime segment, the fields segment, and the final
pure registry segment. -/
theorem parse_ok_elim {defaults : Dict} {q : List (String × QProperty)}
    {cql : Filt → Dict} {bbox : List Rat} {dt : List Timestamp}
    {i : Option Geometry} {colls fids : List String} {filt : Option Filt}
    {fs : Option Fields} {sb : Option Dict} {m : String} {p ps : Value} {out : Dict}
    (h : parse_input_params defaults q cql bbox dt i colls fids filt fs sb m p ps
      = .ok out) :
    ∃ ap3 ap7 : Dict,
      step_datetime (step_bbox (step_defaults defaults) bbox) dt = .ok ap3
      ∧ step_fields (step_filter cql (step_ids (step_intersects ap3 i) fids) filt) fs
          = .ok ap7
      ∧ out = step_registry q (step_sortby ap7 sb) m p ps := by
  unfold parse_input_params at h
  cases hd : step_datetime (step_bbox (step_defaults defaults) bbox) dt with
  | error e => rw [hd] at h; simp [Except.bind] at h
  | ok ap3 =>
      rw [hd] at h
      simp only [Except.bind] at h
      cases hf : step_fields
          (step_filter cql (step_ids (step_intersects ap3 i) fids) filt) fs with
      | error e => rw [hf] at h; simp [Except.bind] at h
      | ok ap7 =>
          rw [hf] at h
          simp only [Except.bind, Except.ok.injEq] at h
          exact ⟨ap3, ap7, rfl, hf, h.symm⟩

/-- Key membership in a successful parameter translation; false on error. -/
def okHas (e : Except String Dict) (k : String) : Bool :=
  match e with
  | .ok d => hasKey d k
  | .error _ => false

/-- C1 counterexample: with fields given as the flat list containing the
entries plus-a, minus-b, minus-c, the translation stores the matching
entries verbatim under exclude_columns, so the output is not the
prefix-stripped list that the claim asserts. -/
theorem C1_counterexample :
    okGet (parse_input_params api_default_params exampleQueryables (fun _ => [])
      [] [] none [] [] none (some (.flist ["+a", "-b", "-c"])) none "POST"
      .vnone .vnone) "exclude_columns" ≠ some (strListValue ["b", "c"]) := by
  have e : okGet (parse_input_params api_default_params exampleQueryables
      (fun _ => []) [] [] none [] [] none (some (.flist ["+a", "-b", "-c"])) none
      "POST" .vnone .vnone) "exclude_columns" = some (strListValue ["-b", "-c"]) := rfl
  rw [e]
  simp [strListValue]

/-- C1 (amended): the flat-list form stores the entries whose first character
is the minus sign verbatim, prefix retained, so fields ["+a","-b","-c"] gives
exclude_columns ["-b","-c"]; the mapping form forwards its exclude list
unchanged, so include ["a"] / exclude ["b"] gives exclude_columns ["b"]. The
two representations therefore disagree on equivalent inputs: the list form
keeps the prefix. -/
theorem C1_theorem :
    okGet (parse_input_params api_default_params exampleQueryables (fun _ => [])
      [] [] none [] [] none (some (.flist ["+a", "-b", "-c"])) none "POST"
      .vnone .vnone) "exclude_columns" = some (strListValue ["-b", "-c"])
    ∧ okGet (parse_input_params api_default_params exampleQueryables (fun _ => [])
      [] [] none [] [] none (some (.fdict [("include", ["a"]), ("exclude", ["b"])]))
      none "POST" .vnone .vnone) "exclude_columns" = some (strListValue ["b"])
    ∧ strListValue ["-b", "-c"] ≠ strListValue ["b", "c"] := by
  refine ⟨rfl, rfl, ?_⟩
  simp [strListValue]

/-- C3: a call of parse_input_params in which bbox, datetime, intersects,
collections, feature_ids, filter, fields and sortby are all empty or absent
returns exactly the Default Parameter Set: no key is missing and no extra key
(method, page and page_size included) is added, whatever the method, page,
page_size and filter-converter arguments are, since the shipped queryables
mapping contains none of the three registry-guarded names. -/
theorem C3_theorem (cql : Filt → Dict) (method : String) (page page_size : Value) :
    parse_input_params api_default_params exampleQueryables cql [] [] none [] []
      none none none method page page_size = .ok api_default_params := rfl

/-- C8 counterexample: a one-element datetime list is not silently ignored:
the translation raises an IndexError while reading the second timestamp. -/
theorem C8_counterexample :
    parse_input_params api_default_params exampleQueryables (fun _ => []) []
      [⟨1000⟩] none [] [] none none none "POST" .vnone .vnone
      = .error "IndexError: list index out of range" := rfl

/-- C8 (amended): an empty datetime list is silently ignored (the output is
exactly the Default Parameter Set, which contains neither startdate nor
enddate), but a one-element datetime list raises an IndexError instead of
being ignored, for every timestamp and every choice of the remaining
free arguments. -/
theorem C8_theorem :
    (∀ (t : Timestamp) (cql : Filt → Dict) (m : String) (p ps : Value),
      parse_input_params api_default_params exampleQueryables cql [] [t] none [] []
        none none none m p ps = .error "IndexError: list index out of range")
    ∧ (∀ (cql : Filt → Dict) (m : String) (p ps : Value),
      parse_input_params api_default_params exampleQueryables cql [] [] none [] []
        none none none m p ps = .ok api_default_params)
    ∧ hasKey api_default_params "startdate" = false
    ∧ hasKey api_default_params "enddate" = false :=
  ⟨fun _ _ _ _ _ => rfl, fun _ _ _ _ => rfl, rfl, rfl⟩

/-- C4 counterexample: with a non-empty bbox and a provided geometry, a
filter whose external CQL conversion yields a bbox entry is merged after the
intersects block and overwrites the geometry bounds, so the output bbox is
neither the supplied bbox nor the geometry bounds. -/
theorem C4_counterexample :
    okGet (parse_input_params api_default_params exampleQueryables
      (fun _ => [("bbox", .vstr "clobbered")]) [1, 2, 3, 4] []
      (some ⟨[5, 6, 7, 8]⟩) [] [] (some (.fdict [("a", .vnum 1)])) none none
      "POST" .vnone .vnone) "bbox" = some (.vstr "clobbered")
    ∧ Value.vstr "clobbered" ≠ ratListValue [5, 6, 7, 8] := by
  refine ⟨rfl, ?_⟩
  simp [ratListValue]

/-- C4 (amended): whenever a non-empty bbox and a geometry are both supplied
and the filter's external CQL conversion introduces no bbox key of its own
(in particular whenever no filter is supplied), every successful translation
maps bbox to the geometry's bounds, never to the explicitly supplied bbox. -/
theorem C4_theorem (q : List (String × QProperty)) (cql : Filt → Dict)
    (bbox : List Rat) (dt : List Timestamp) (g : Geometry)
    (colls fids : List String) (filt : Option Filt) (fs : Option Fields)
    (sb : Option Dict) (m : String) (p ps : Value) (out : Dict)
    (hb : bbox ≠ [])
    (hc : ∀ f, filt = some f → hasKey (cql f) "bbox" = false)
    (h : parse_input_params api_default_params q cql bbox dt (some g) colls fids
      filt fs sb m p ps = .ok out) :
    dictGet out "bbox" = some (ratListValue g.bounds) := by
  obtain ⟨ap3, ap7, hd, hf, ho⟩ := parse_ok_elim h
  subst ho
  rw [dictGet_step_registry_other "bbox" rfl rfl rfl, dictGet_step_sortby "bbox" rfl,
      dictGet_step_fields hf "bbox" rfl, dictGet_step_filter hc,
      dictGet_step_ids "bbox" rfl]
  simp [step_intersects, dictGet_dictSet]

/-- C4 witness: the amended precedence law at a concrete input with
bbox [1,2,3,4], geometry bounds [5,6,7,8] and no filter. -/
theorem C4_witness :
    dictGet [("api_key", Value.vstr "api key goes here"),
      ("format", Value.vstr "json"), ("bbox", ratListValue [5, 6, 7, 8])] "bbox"
      = some (ratListValue (Geometry.mk [5, 6, 7, 8]).bounds) :=
  C4_theorem exampleQueryables (fun _ => []) [1, 2, 3, 4] [] ⟨[5, 6, 7, 8]⟩ [] []
    none none none "POST" .vnone .vnone
    [("api_key", .vstr "api key goes here"), ("format", .vstr "json"),
     ("bbox", ratListValue [5, 6, 7, 8])]
    (by simp) (fun f hf => nomatch hf) rfl

/-- For a successful translation with the shipped Default Parameter Set, a
name among method, page and page_size is a key of the output exactly when it
is a key of the queryables mapping, provided the filter conversion introduces
no entry of that name. -/
theorem parse_registry_key {q : List (String × QProperty)} {cql : Filt → Dict}
    {bbox : List Rat} {dt : List Timestamp} {i : Option Geometry}
    {colls fids : List String} {filt : Option Filt} {fs : Option Fields}
    {sb : Option Dict} {m : String} {p ps : Value} {out : Dict} {n : String}
    (hn : n = "method" ∨ n = "page" ∨ n = "page_size")
    (hc : ∀ f, filt = some f → hasKey (cql f) n = false)
    (h : parse_input_params api_default_params q cql bbox dt i colls fids filt fs
      sb m p ps = .ok out) :
    hasKey out n = hasKey q n := by
  obtain ⟨ap3, ap7, hd, hf, ho⟩ := parse_ok_elim h
  subst ho
  rcases hn with rfl | rfl | rfl
  · have h0 : hasKey (step_sortby ap7 sb) "method" = false := by
      rw [hasKey_step_sortby "method" rfl, hasKey_step_fields hf "method" rfl,
          hasKey_step_filter hc, hasKey_step_ids "method" rfl,
          hasKey_step_intersects "method" rfl, hasKey_step_datetime hd "method" rfl rfl,
          hasKey_step_bbox "method" rfl]
      rfl
    exact hasKey_step_registry_method h0
  · have h0 : hasKey (step_sortby ap7 sb) "page" = false := by
      rw [hasKey_step_sortby "page" rfl, hasKey_step_fields hf "page" rfl,
          hasKey_step_filter hc, hasKey_step_ids "page" rfl,
          hasKey_step_intersects "page" rfl, hasKey_step_datetime hd "page" rfl rfl,
          hasKey_step_bbox "page" rfl]
      rfl
    exact hasKey_step_registry_page h0
  · have h0 : hasKey (step_sortby ap7 sb) "page_size" = false := by
      rw [hasKey_step_sortby "page_size" rfl, hasKey_step_fields hf "page_size" rfl,
          hasKey_step_filter hc, hasKey_step_ids "page_size" rfl,
          hasKey_step_intersects "page_size" rfl, hasKey_step_datetime hd "page_size" rfl rfl,
          hasKey_step_bbox "page_size" rfl]
      rfl
    exact hasKey_step_registry_page_size h0

/-- C5 counterexample: the names method, page and page_size are not in the
output only when absent from the queryables mapping: a filter whose external
CQL conversion yields a method entry puts method into the output although the
shipped queryables mapping does not contain it, so the equivalence fails. -/
theorem C5_counterexample :
    okHas (parse_input_params api_default_params exampleQueryables
      (fun _ => [("method", .vstr "GET")]) [] [] none [] []
      (some (.fdict [("a", .vnum 1)])) none none "POST" .vnone .vnone) "method"
      = true
    ∧ hasKey exampleQueryables "method" = false := ⟨rfl, rfl⟩

/-- C5 (amended): for every successful translation whose filter conversion
introduces none of the names method, page and page_size (in particular
whenever no filter is supplied), each of the three names is a key of the
output exactly when it is a key of the queryables mapping. -/
theorem C5_theorem (q : List (String × QProperty)) (cql : Filt → Dict)
    (bbox : List Rat) (dt : List Timestamp) (i : Option Geometry)
    (colls fids : List String) (filt : Option Filt) (fs : Option Fields)
    (sb : Option Dict) (m : String) (p ps : Value) (out : Dict)
    (hc : ∀ f, filt = some f → (hasKey (cql f) "method" = false
      ∧ hasKey (cql f) "page" = false ∧ hasKey (cql f) "page_size" = false))
    (h : parse_input_params api_default_params q cql bbox dt i colls fids filt fs
      sb m p ps = .ok out) :
    hasKey out "method" = hasKey q "method"
    ∧ hasKey out "page" = hasKey q "page"
    ∧ hasKey out "page_size" = hasKey q "page_size" :=
  ⟨parse_registry_key (Or.inl rfl) (fun f hf => (hc f hf).1) h,
   parse_registry_key (Or.inr (Or.inl rfl)) (fun f hf => (hc f hf).2.1) h,
   parse_registry_key (Or.inr (Or.inr rfl)) (fun f hf => (hc f hf).2.2) h⟩

/-- A registry that advertises page only, used to instantiate the registry
equivalence at a concrete input. -/
def pageOnlyQueryables : List (String × QProperty) :=
  [("page", ⟨"page", "integer", none⟩)]

/-- C5 witness: the amended equivalence at a concrete input whose registry
advertises page only, with no filter. -/
theorem C5_witness :
    hasKey [("api_key", Value.vstr "api key goes here"),
        ("format", Value.vstr "json"), ("page", Value.vnone)] "method"
      = hasKey pageOnlyQueryables "method"
    ∧ hasKey [("api_key", Value.vstr "api key goes here"),
        ("format", Value.vstr "json"), ("page", Value.vnone)] "page"
      = hasKey pageOnlyQueryables "page"
    ∧ hasKey [("api_key", Value.vstr "api key goes here"),
        ("format", Value.vstr "json"), ("page", Value.vnone)] "page_size"
      = hasKey pageOnlyQueryables "page_size" :=
  C5_theorem pageOnlyQueryables (fun _ => []) [] [] none [] [] none none none
    "POST" .vnone .vnone
    [("api_key", .vstr "api key goes here"), ("format", .vstr "json"),
     ("page", .vnone)]
    (fun f hf => nomatch hf) rfl

/-- C2: the pagination round trip. A search with limit 50 and empty
pagination resolves page 1 and page size 50 (the values handed to
request_features), returns the next-page state page 2 / page size 50
alongside the features, and a second search given that returned pagination
mapping resolves page 2 and page size 50 whatever its limit argument is. -/
theorem C2_theorem (defaults : Dict) (q : List (String × QProperty))
    (cql : Filt → Dict) (httpGet : Dict → HttpResponse) (pp : Dict)
    (lim2 : Option Int) (bbox : List Rat) (dt : List Timestamp)
    (i : Option Geometry) (colls fids : List String) (filt : Option Filt)
    (fs : Option Fields) (sb : Option Dict) (m : String) (features : List Feature)
    (h1 : request_features defaults q cql httpGet bbox dt i colls fids filt fs sb m
      (.vnum 1) (.vnum 50) = .ok features) :
    resolve_pagination max_page_size [] (some 50) = (.vnum 1, .vnum 50)
    ∧ search defaults q cql httpGet [] pp (some 50) bbox dt i colls fids filt fs sb m
      = .ok (features, [("page", .vnum 2), ("page_size", .vnum 50)])
    ∧ resolve_pagination max_page_size [("page", .vnum 2), ("page_size", .vnum 50)]
        lim2 = (.vnum 2, .vnum 50) := by
  refine ⟨rfl, ?_, rfl⟩
  have e : resolve_pagination max_page_size [] (some 50) = (.vnum 1, .vnum 50) := rfl
  simp only [search, e]
  rw [h1]
  simp only [Except.bind, pyIncr]
  norm_num

/-- C2 witness: the round trip at a concrete input whose HTTP requester
always answers 404, so the feature list is empty. -/
theorem C2_witness :
    resolve_pagination max_page_size [] (some 50) = (.vnum 1, .vnum 50)
    ∧ search api_default_params exampleQueryables (fun _ => [])
        (fun _ => ⟨404, .vnone⟩) [] [] (some 50) [] [] none [] [] none none none
        "POST" = .ok ([], [("page", .vnum 2), ("page_size", .vnum 50)])
    ∧ resolve_pagination max_page_size [("page", .vnum 2), ("page_size", .vnum 50)]
        none = (.vnum 2, .vnum 50) :=
  C2_theorem api_default_params exampleQueryables (fun _ => [])
    (fun _ => ⟨404, .vnone⟩) [] none [] [] none [] [] none none none "POST" [] rfl

/-- C6: whenever the translation succeeds and the HTTP requester answers the
translated parameters with a status code other than 200, request_features
returns the empty feature list and raises nothing. -/
theorem C6_theorem (defaults : Dict) (q : List (String × QProperty))
    (cql : Filt → Dict) (httpGet : Dict → HttpResponse) (bbox : List Rat)
    (dt : List Timestamp) (i : Option Geometry) (colls fids : List String)
    (filt : Option Filt) (fs : Option Fields) (sb : Option Dict) (m : String)
    (p ps : Value) (ap : Dict)
    (hp : parse_input_params defaults q cql bbox dt i colls fids filt fs sb m p ps
      = .ok ap)
    (hs : (httpGet ap).status_code ≠ 200) :
    request_features defaults q cql httpGet bbox dt i colls fids filt fs sb m p ps
      = .ok [] := by
  unfold request_features
  rw [hp]
  simp only [Except.bind]
  rw [if_neg hs]

/-- C6 witness: a requester that always answers 500 yields the empty feature
list at a concrete all-empty input. -/
theorem C6_witness :
    request_features api_default_params exampleQueryables (fun _ => [])
      (fun _ => ⟨500, .vnone⟩) [] [] none [] [] none none none "POST" .vnone .vnone
      = .ok [] :=
  C6_theorem api_default_params exampleQueryables (fun _ => [])
    (fun _ => ⟨500, .vnone⟩) [] [] none [] [] none none none "POST" .vnone .vnone
    api_default_params rfl (by decide)

/-- C7: on the raw response whose results list holds the single observation
with id x1, Latitude 1, Longitude 2, UTC 2023-01-01T00:00 and extra 5, the
converter yields exactly one record: identifier x1, point geometry with
coordinates longitude 2 first and latitude 1 second, the parsed timestamp
2023-01-01 00:00, and a properties mapping that contains extra 5 and none of
the keys id, geometry and datetime. -/
theorem C7_theorem :
    convert_results_to_features (.vdict [("results", .vlist [.vdict
      [("id", .vstr "x1"), ("Latitude", .vnum 1), ("Longitude", .vnum 2),
       ("UTC", .vstr "2023-01-01T00:00"), ("extra", .vnum 5)]])])
    = .ok [{ id := .vstr "x1",
             geometry := .vdict [("type", .vstr "Point"),
                                 ("coordinates", .vlist [.vnum 2, .vnum 1])],
             datetime := ⟨2023, 1, 1, 0, 0⟩,
             properties := [("Latitude", .vnum 1), ("Longitude", .vnum 2),
                            ("UTC", .vstr "2023-01-01T00:00"), ("extra", .vnum 5)] }]
    ∧ dictGet [("Latitude", Value.vnum 1), ("Longitude", Value.vnum 2),
        ("UTC", Value.vstr "2023-01-01T00:00"), ("extra", Value.vnum 5)] "extra"
      = some (.vnum 5)
    ∧ hasKey [("Latitude", Value.vnum 1), ("Longitude", Value.vnum 2),
        ("UTC", Value.vstr "2023-01-01T00:00"), ("extra", Value.vnum 5)] "id" = false
    ∧ hasKey [("Latitude", Value.vnum 1), ("Longitude", Value.vnum 2),
        ("UTC", Value.vstr "2023-01-01T00:00"), ("extra", Value.vnum 5)] "geometry"
      = false
    ∧ hasKey [("Latitude", Value.vnum 1), ("Longitude", Value.vnum 2),
        ("UTC", Value.vstr "2023-01-01T00:00"), ("extra", Value.vnum 5)] "datetime"
      = false :=
  ⟨rfl, rfl, rfl, rfl, rfl⟩

/-- C9: under a 200 status, a truthy mapping body whose results entry is the
empty list or absent makes request_features raise the IndexError coming from
logging the first element in the converter, while any falsy body takes the
guarded path and yields the empty feature list. -/
theorem C9_theorem (defaults : Dict) (q : List (String × QProperty))
    (cql : Filt → Dict) (bbox : List Rat) (dt : List Timestamp)
    (i : Option Geometry) (colls fids : List String) (filt : Option Filt)
    (fs : Option Fields) (sb : Option Dict) (m : String) (p ps : Value) (ap : Dict)
    (hp : parse_input_params defaults q cql bbox dt i colls fids filt fs sb m p ps
      = .ok ap) :
    (∀ d : Dict, pyTruthy (.vdict d) = true
      → dictGetD d "results" (.vlist []) = .vlist []
      → request_features defaults q cql (fun _ => ⟨200, .vdict d⟩) bbox dt i colls
          fids filt fs sb m p ps = .error "IndexError: list index out of range")
    ∧ (∀ b : Value, pyTruthy b = false
      → request_features defaults q cql (fun _ => ⟨200, b⟩) bbox dt i colls fids
          filt fs sb m p ps = .ok []) := by
  constructor
  · intro d htr hres
    unfold request_features
    rw [hp]
    simp only [Except.bind]
    simp [htr, convert_results_to_features, hres, pyAsList, pyIndex, Except.bind]
  · intro b hb
    unfold request_features
    rw [hp]
    simp only [Except.bind]
    simp [hb]

/-- C9 witness: at a concrete all-empty input, a 200 response whose body is a
non-empty mapping without results raises the IndexError, and a 200 response
whose body is None yields the empty feature list. -/
theorem C9_witness :
    request_features api_default_params exampleQueryables (fun _ => [])
      (fun _ => ⟨200, .vdict [("x", .vnum 1)]⟩) [] [] none [] [] none none none
      "POST" .vnone .vnone = .error "IndexError: list index out of range"
    ∧ request_features api_default_params exampleQueryables (fun _ => [])
      (fun _ => ⟨200, .vnone⟩) [] [] none [] [] none none none "POST" .vnone .vnone
      = .ok [] :=
  ⟨(C9_theorem api_default_params exampleQueryables (fun _ => []) [] [] none [] []
      none none none "POST" .vnone .vnone api_default_params rfl).1
      [("x", .vnum 1)] rfl rfl,
   (C9_theorem api_default_params exampleQueryables (fun _ => []) [] [] none [] []
      none none none "POST" .vnone .vnone api_default_params rfl).2 .vnone rfl⟩

/-- C10: page and page_size are forwarded without a truthiness guard: for
every successful translation, whenever page (respectively page_size) is a key
of the queryables mapping, the output maps that key to exactly the supplied
value, even when that value is None, so the output can contain None values. -/
theorem C10_theorem (defaults : Dict) (q : List (String × QProperty))
    (cql : Filt → Dict) (bbox : List Rat) (dt : List Timestamp)
    (i : Option Geometry) (colls fids : List String) (filt : Option Filt)
    (fs : Option Fields) (sb : Option Dict) (m : String) (p ps : Value) (out : Dict)
    (h : parse_input_params defaults q cql bbox dt i colls fids filt fs sb m p ps
      = .ok out) :
    (hasKey q "page" = true → dictGet out "page" = some p)
    ∧ (hasKey q "page_size" = true → dictGet out "page_size" = some ps) := by
  obtain ⟨ap3, ap7, hd, hf, ho⟩ := parse_ok_elim h
  subst ho
  exact ⟨fun hq => dictGet_step_registry_page hq,
         fun hq => dictGet_step_registry_page_size hq⟩

/-- C10 witness: with a registry advertising page and page_size and both
values supplied as None, the output maps both keys to None. -/
theorem C10_witness :
    dictGet [("api_key", Value.vstr "api key goes here"),
      ("format", Value.vstr "json"), ("page", Value.vnone),
      ("page_size", Value.vnone)] "page" = some Value.vnone
    ∧ dictGet [("api_key", Value.vstr "api key goes here"),
      ("format", Value.vstr "json"), ("page", Value.vnone),
      ("page_size", Value.vnone)] "page_size" = some Value.vnone :=
  ⟨(C10_theorem api_default_params
      [("page", ⟨"page", "integer", none⟩), ("page_size", ⟨"page_size", "integer", none⟩)]
      (fun _ => []) [] [] none [] [] none none none "POST" .vnone .vnone
      [("api_key", .vstr "api key goes here"), ("format", .vstr "json"),
       ("page", .vnone), ("page_size", .vnone)] rfl).1 rfl,
   (C10_theorem api_default_params
      [("page", ⟨"page", "integer", none⟩), ("page_size", ⟨"page_size", "integer", none⟩)]
      (fun _ => []) [] [] none [] [] none none none "POST" .vnone .vnone
      [("api_key", .vstr "api key goes here"), ("format", .vstr "json"),
       ("page", .vnone), ("page_size", .vnone)] rfl).2 rfl⟩
